import Mathlib

/-!
  # Shallow embedding of financialpy

  Shallow embedding of the repository's three source files — `interest.py`
  (the `AbstractInterest` / `SimpleInterest` / `CompoundInterest` hierarchy),
  `progression.py` (`Progression` / `ArithmeticProgression` /
  `GeometricProgression`) and `series.py` (`UniformSeriesPayment`) — over an
  arbitrary linear ordered field `K` standing for Python's floats with exact
  arithmetic. Python's optional keyword arguments become `Option` parameters
  with the source's `is not None` branch structure; a raised `IndexError`
  becomes `Except ProgressionError`; a raised `TypeError` in a constructor
  becomes an `Option` result; mutation of an instance's memo caches becomes
  explicit state passing: each method that writes instance attributes returns
  the new state next to its result.
-/

namespace Financialpy

/-- The one error the embedded core raises through `Except`: Python's
`IndexError` (progression index below 1, or subscripting an empty list in
`net_present_value`). -/
inductive ProgressionError where
  | indexError
deriving DecidableEq

section Progression

variable {K : Type} [LinearOrderedField K]

/-- State of a `Progression` instance (progression.py lines 11-14): the ratio
and the memoized term dictionary `self.terms`. The dictionary always holds
index 1 (set by `__init__`), kept here as the separate field `term1`; `cache`
holds every other memoized index. -/
structure ProgressionState (K : Type) where
  term1 : K
  ratio : K
  cache : ℤ → Option K

namespace Progression

/-- Construction `Progression(initial_term, ratio)` (progression.py lines
11-14): `self.ratio = ratio; self.terms = {1: initial_term}`. -/
def init (initial_term ratio : K) : ProgressionState K :=
  { term1 := initial_term, ratio := ratio, cache := fun _ => none }

/-- Lookup in `self.terms`: index 1 is always present. -/
def terms (s : ProgressionState K) (n : ℤ) : Option K :=
  if n = 1 then some s.term1 else s.cache n

/-- Write `self.terms[n] = v`. -/
def set_term (s : ProgressionState K) (n : ℤ) (v : K) : ProgressionState K :=
  if n = 1 then { s with term1 := v }
  else { s with cache := fun m => if m = n then some v else s.cache m }

/-- Shared `Progression.nth_term` (progression.py lines 48-55): check the
index, return the cached value when present, otherwise compute through the
regime-specific `_nth_term`, passed here as `compute`. -/
def nth_term (compute : ProgressionState K → ℤ → K × ProgressionState K)
    (s : ProgressionState K) (n : ℤ) :
    Except ProgressionError (K × ProgressionState K) :=
  if n < 1 then .error .indexError
  else
    match terms s n with
    | some v => .ok (v, s)
    | none => .ok (compute s n)

/-- Body of the `for i in range(1, n + 1)` loop of `n_first_terms`
(progression.py lines 41-46), iterated `count` times: the terms at indices
`1 .. count` in order, threading the memo cache through each `nth_term`
call. Every index passed to `nth_term` is at least 1, so the error branch is
never taken; it is propagated regardless. -/
def first_terms_aux (compute : ProgressionState K → ℤ → K × ProgressionState K)
    (s : ProgressionState K) :
    ℕ → Except ProgressionError (List K × ProgressionState K)
  | 0 => .ok ([], s)
  | count + 1 =>
    match first_terms_aux compute s count with
    | .error e => .error e
    | .ok (acc, s') =>
      match nth_term compute s' ((count : ℤ) + 1) with
      | .error e => .error e
      | .ok (v, s'') => .ok (acc ++ [v], s'')

/-- Shared `Progression.n_first_terms` (progression.py lines 38-46). -/
def n_first_terms (compute : ProgressionState K → ℤ → K × ProgressionState K)
    (s : ProgressionState K) (n : ℤ) :
    Except ProgressionError (List K × ProgressionState K) :=
  if n < 1 then .error .indexError
  else first_terms_aux compute s n.toNat

end Progression

namespace ArithmeticProgression

/-- Cache-missing branch `ArithmeticProgression._nth_term` (progression.py
lines 84-87): `self.terms[n] = self.terms[1] + (n - 1)*self.ratio`. -/
def nth_term_compute (s : ProgressionState K) (n : ℤ) : K × ProgressionState K :=
  let v := s.term1 + ((n - 1 : ℤ) : K) * s.ratio
  (v, Progression.set_term s n v)

/-- Closed-form partial sum `ArithmeticProgression.sum_first_terms`
(progression.py lines 89-92): `n*(self.terms[1] + self.nth_term(n)) / 2`,
with `self.terms[1]` read before the memoizing `nth_term` call. -/
def sum_first_terms (s : ProgressionState K) (n : ℤ) :
    Except ProgressionError (K × ProgressionState K) :=
  if n < 1 then .error .indexError
  else
    match Progression.nth_term nth_term_compute s n with
    | .error e => .error e
    | .ok (v, s') => .ok ((n : K) * (s.term1 + v) / 2, s')

end ArithmeticProgression

namespace GeometricProgression

/-- Cache-missing branch `GeometricProgression._nth_term` (progression.py
lines 121-124): `self.terms[n] = self.terms[1]*(self.ratio**(n - 1))`. -/
def nth_term_compute (s : ProgressionState K) (n : ℤ) : K × ProgressionState K :=
  let v := s.term1 * s.ratio ^ (n - 1)
  (v, Progression.set_term s n v)

/-- Closed-form partial sum `GeometricProgression.sum_first_terms`
(progression.py lines 126-133): `n*self.terms[1]` when the ratio is 1, else
`self.terms[1]*(1 - self.ratio**n) / (1 - self.ratio)`. No cache write. -/
def sum_first_terms (s : ProgressionState K) (n : ℤ) :
    Except ProgressionError K :=
  if n < 1 then .error .indexError
  else if s.ratio = 1 then .ok ((n : K) * s.term1)
  else .ok (s.term1 * (1 - s.ratio ^ n) / (1 - s.ratio))

end GeometricProgression

end Progression

section Interest

variable {K : Type} [LinearOrderedField K] {P : Type}

namespace AbstractInterest

/-- Derived `AbstractInterest.future_value` (interest.py lines 18-26),
parameterized by the regime's `accumulation_factor` primitive `A` (periods
of type `P`: the field itself for simple interest, an integer exponent for
compound). When `interest` is supplied it is added; otherwise the present
value is scaled by the accumulation factor. -/
def future_value (A : K → P → K) (present_value : K) (interest : Option K)
    (interest_rate : K) (periods : P) : K :=
  match interest with
  | some i => present_value + i
  | none => present_value * A interest_rate periods

/-- Derived `AbstractInterest.interest` (interest.py lines 28-36). -/
def interest (A : K → P → K) (present_value : K) (future_value : Option K)
    (interest_rate : K) (periods : P) : K :=
  match future_value with
  | some fv => fv - present_value
  | none => present_value * (A interest_rate periods - 1)

/-- Derived `AbstractInterest.reduction_factor` (interest.py lines 138-141):
the reciprocal of the accumulation factor. -/
def reduction_factor (A : K → P → K) (interest_rate : K) (periods : P) : K :=
  1 / A interest_rate periods

/-- Derived `AbstractInterest.present_value` (interest.py lines 81-89). -/
def present_value (A : K → P → K) (future_value : K) (interest : Option K)
    (interest_rate : K) (periods : P) : K :=
  match interest with
  | some i => future_value - i
  | none => future_value * reduction_factor A interest_rate periods

/-- Derived `AbstractInterest.interest_rate_period` (interest.py lines
45-53). With a future value supplied, the source takes
`interest(present_value, future_value=fv)`, which is `fv - present_value`
in every regime (interest.py lines 33-34, the regime primitive is unused on
that branch), written so here; with only an interest amount supplied, that
amount is divided by the present value; with neither, Python's
`None / present_value` raises, modeled as `none`. -/
def interest_rate_period (present_value : K)
    (future_value interest_supplied : Option K) : Option K :=
  match future_value with
  | some fv => some ((fv - present_value) / present_value)
  | none => interest_supplied.map (fun i => i / present_value)

/-- Derived `AbstractInterest.interest_rate` (interest.py lines 38-43): the
per-period implied rate divided by the period count. Shared by both regimes;
neither subclass overrides it. -/
def interest_rate (present_value future_value periods : K) : Option K :=
  (interest_rate_period present_value (some future_value) none).map
    (fun x => x / periods)

/-- Derived `AbstractInterest.periods` (interest.py lines 74-79): the
per-period implied rate divided by the given rate. Shared by both regimes;
neither subclass overrides it. -/
def periods (present_value future_value interest_rate : K) : Option K :=
  (interest_rate_period present_value (some future_value) none).map
    (fun x => x / interest_rate)

/-- Derived `AbstractInterest.real_interest_rate_period` (interest.py lines
91-106): resolve the nominal per-period rate from an explicit rate, else a
future value, else an interest amount, then apply the Fisher adjustment
`(nominal - inflation)/(1 + inflation)`. -/
def real_interest_rate_period (present_value inflation_rate : K)
    (interest_rate future_value interest_supplied : Option K) : Option K :=
  (match interest_rate with
   | some r => some r
   | none =>
     match future_value with
     | some fv => interest_rate_period present_value (some fv) none
     | none => interest_rate_period present_value none interest_supplied).map
    (fun r => (r - inflation_rate) / (1 + inflation_rate))

/-- Derived `AbstractInterest.real_interest_period` (interest.py lines
108-123): the same nominal-rate resolution, then
`present_value*(interest_rate - inflation_rate)`. -/
def real_interest_period (present_value inflation_rate : K)
    (interest_rate future_value interest_supplied : Option K) : Option K :=
  (match interest_rate with
   | some r => some r
   | none =>
     match future_value with
     | some fv => interest_rate_period present_value (some fv) none
     | none => interest_rate_period present_value none interest_supplied).map
    (fun r => present_value * (r - inflation_rate))

/-- Body of the `for f, i, n in zip_longest(...)` loop of
`net_present_value` (interest.py lines 63-71), iterated once per tuple that
`zip_longest` yields — `fuel` is the length of the longest list. An
exhausted list yields `None` and the previous element carried in
`prev_f`/`prev_i`/`prev_n` is used instead (the fill-forward semantics). -/
def npv_loop (A : K → P → K) :
    ℕ → K → K → P → List K → List K → List P → K
  | 0, _, _, _, _, _, _ => 0
  | fuel + 1, prev_f, prev_i, prev_n, fs, rs, ns =>
    let f := fs.headD prev_f
    let i := rs.headD prev_i
    let n := ns.headD prev_n
    present_value A f none i n + npv_loop A fuel f i n fs.tail rs.tail ns.tail

/-- Derived `AbstractInterest.net_present_value` (interest.py lines 55-72):
seed the previous-element registers from the heads — Python's
`future_values[0]` etc., an `IndexError` when any of the three lists is
empty — then run the `zip_longest` loop. -/
def net_present_value (A : K → P → K)
    (future_values interest_rates : List K) (periods : List P) :
    Except ProgressionError K :=
  match future_values, interest_rates, periods with
  | f0 :: _, i0 :: _, n0 :: _ =>
    .ok (npv_loop A
      (max future_values.length (max interest_rates.length periods.length))
      f0 i0 n0 future_values interest_rates periods)
  | _, _, _ => .error .indexError

end AbstractInterest

namespace SimpleInterest

/-- Primitive `SimpleInterest.accumulation_factor` (interest.py lines
147-150): `1 + (interest_rate*periods)`. -/
def accumulation_factor (interest_rate periods : K) : K :=
  1 + interest_rate * periods

/-- Override `SimpleInterest.internal_rate_return` (interest.py lines
170-173): `(future_value/present_value - 1) / periods`. -/
def internal_rate_return (present_value future_value periods : K) : K :=
  (future_value / present_value - 1) / periods

end SimpleInterest

namespace CompoundInterest

/-- Primitive `CompoundInterest.accumulation_factor` (interest.py lines
187-190): `(1 + interest_rate) ** periods`, with an integer period count as
in every call the examined claims reach. -/
def accumulation_factor (interest_rate : K) (periods : ℤ) : K :=
  (1 + interest_rate) ^ periods

end CompoundInterest

end Interest

section CompoundReal

/-- Override `CompoundInterest.internal_rate_return` (interest.py lines
192-195): `(future_value/present_value)**(1/periods) - 1`. The fractional
exponent forces the real power function, so this one definition lives over
`ℝ` rather than a generic field (and is the file's one noncomputable
definition). -/
noncomputable def CompoundInterest.internal_rate_return
    (present_value future_value : ℝ) (periods : ℤ) : ℝ :=
  (future_value / present_value) ^ ((1 : ℝ) / (periods : ℝ)) - 1

end CompoundReal

section Series

variable {K : Type} [LinearOrderedField K]

/-- State of a `UniformSeriesPayment` instance (series.py lines 11-25): the
three construction parameters, the progression ratio computed once in
`__init__` as `CompoundInterest.reduction_factor(interest_rate, 1)`, and the
four memo caches that start as `None`. The interest system is always
`CompoundInterest` (series.py line 19), so the regime is fixed rather than
stored. -/
structure UniformSeriesPayment (K : Type) where
  interest_rate : K
  periods : ℤ
  first_payment : ℤ
  progression_ratio : K
  future_value_cache : Option K
  payment_cache : Option K
  present_value_cache : Option K
  progression_cache : Option (ProgressionState K)

namespace UniformSeriesPayment

/-- A fresh `UniformSeriesPayment` state as `__init__` builds it, before the
`first_payment` validation is taken into account. -/
def freshSolver (interest_rate : K) (periods first_payment : ℤ) :
    UniformSeriesPayment K :=
  { interest_rate := interest_rate
    periods := periods
    first_payment := first_payment
    progression_ratio :=
      AbstractInterest.reduction_factor CompoundInterest.accumulation_factor
        interest_rate 1
    future_value_cache := none
    payment_cache := none
    present_value_cache := none
    progression_cache := none }

/-- Construction `UniformSeriesPayment(interest_rate, periods,
first_payment)` (series.py lines 11-25): raises `TypeError` — modeled as
`none` — unless `first_payment` is 0 or 1. -/
def mk? (interest_rate : K) (periods first_payment : ℤ) :
    Option (UniformSeriesPayment K) :=
  if first_payment = 0 ∨ first_payment = 1 then
    some (freshSolver interest_rate periods first_payment)
  else none

/-- Static helper `UniformSeriesPayment._fv_by_pmt` (series.py lines
136-140). -/
def fv_by_pmt (pmt i : K) (n k : ℤ) (int_sys : K → ℤ → K) : K :=
  let accum_factor_n := int_sys i n
  let accum_factor_1 := int_sys i 1
  let k_factor := if k = 0 then accum_factor_1 else 1
  pmt * ((accum_factor_n - 1) / i) * k_factor

/-- Static helper `UniformSeriesPayment._pmt_by_fv` (series.py lines
142-147). -/
def pmt_by_fv (fv i : K) (n k : ℤ) (int_sys : K → ℤ → K) : K :=
  let accum_factor_n := int_sys i n
  let reduc_factor_1 := AbstractInterest.reduction_factor int_sys i 1
  let k_factor := if k = 0 then reduc_factor_1 else 1
  fv * (i / (accum_factor_n - 1)) * k_factor

/-- Static helper `UniformSeriesPayment._pmt_by_pv` (series.py lines
149-154). -/
def pmt_by_pv (pv i : K) (n k : ℤ) (int_sys : K → ℤ → K) : K :=
  let accum_factor_n := int_sys i n
  let reduc_factor_1 := AbstractInterest.reduction_factor int_sys i 1
  let k_factor := if k = 0 then reduc_factor_1 else 1
  pv * ((i * accum_factor_n) / (accum_factor_n - 1)) * k_factor

/-- Cache test of `payment_by_present_value` (series.py lines 58-59):
`self._present_value is not None and abs(present_value -
self._present_value) <= tolerance`. -/
def pv_cache_hit (s : UniformSeriesPayment K) (present_value tolerance : K) :
    Bool :=
  match s.present_value_cache with
  | some pv0 => decide (|present_value - pv0| ≤ tolerance)
  | none => false

/-- Cache test of `payment_by_future_value` (series.py lines 75-76). -/
def fv_cache_hit (s : UniformSeriesPayment K) (future_value tolerance : K) :
    Bool :=
  match s.future_value_cache with
  | some fv0 => decide (|future_value - fv0| ≤ tolerance)
  | none => false

/-- Cache test of `future_value` and `present_value` (series.py lines 41-42
and 92-93). -/
def pmt_cache_hit (s : UniformSeriesPayment K) (payment tolerance : K) :
    Bool :=
  match s.payment_cache with
  | some pmt0 => decide (|payment - pmt0| ≤ tolerance)
  | none => false

/-- Solver method `payment_by_present_value` (series.py lines 56-71): on a
cache hit return the cached payment unchanged; otherwise record the new
present value, the future value grown from it, the payment from
`_pmt_by_pv`, and a fresh geometric progression seeded with that payment. -/
def payment_by_present_value (s : UniformSeriesPayment K)
    (present_value tolerance : K) : Option K × UniformSeriesPayment K :=
  if pv_cache_hit s present_value tolerance then (s.payment_cache, s)
  else
    let fv := AbstractInterest.future_value CompoundInterest.accumulation_factor
      present_value none s.interest_rate s.periods
    let pmt := pmt_by_pv present_value s.interest_rate s.periods
      s.first_payment CompoundInterest.accumulation_factor
    (some pmt,
      { s with
        present_value_cache := some present_value
        future_value_cache := some fv
        payment_cache := some pmt
        progression_cache := some (Progression.init pmt s.progression_ratio) })

/-- Solver method `payment_by_future_value` (series.py lines 73-88). -/
def payment_by_future_value (s : UniformSeriesPayment K)
    (future_value tolerance : K) : Option K × UniformSeriesPayment K :=
  if fv_cache_hit s future_value tolerance then (s.payment_cache, s)
  else
    let pv := AbstractInterest.present_value CompoundInterest.accumulation_factor
      future_value none s.interest_rate s.periods
    let pmt := pmt_by_fv future_value s.interest_rate s.periods
      s.first_payment CompoundInterest.accumulation_factor
    (some pmt,
      { s with
        future_value_cache := some future_value
        present_value_cache := some pv
        payment_cache := some pmt
        progression_cache := some (Progression.init pmt s.progression_ratio) })

/-- Solver method `future_value` (series.py lines 39-54): compute the future
value of the payment stream through `_fv_by_pmt` and discount it back for
the present-value cache. -/
def future_value (s : UniformSeriesPayment K) (payment tolerance : K) :
    Option K × UniformSeriesPayment K :=
  if pmt_cache_hit s payment tolerance then (s.future_value_cache, s)
  else
    let prog := Progression.init payment s.progression_ratio
    let fv := fv_by_pmt payment s.interest_rate s.periods s.first_payment
      CompoundInterest.accumulation_factor
    let pv := AbstractInterest.present_value CompoundInterest.accumulation_factor
      fv none s.interest_rate s.periods
    (some fv,
      { s with
        payment_cache := some payment
        progression_cache := some prog
        future_value_cache := some fv
        present_value_cache := some pv })

/-- Solver method `present_value` (series.py lines 90-107): evaluate the
geometric partial sum of the discounted payments, multiply in the extra
one-period discount when `first_payment == 1`, and grow the result for the
future-value cache. The partial sum checks its index, so a period count
below 1 propagates an `IndexError`. -/
def present_value (s : UniformSeriesPayment K) (payment tolerance : K) :
    Except ProgressionError (Option K × UniformSeriesPayment K) :=
  if pmt_cache_hit s payment tolerance then .ok (s.present_value_cache, s)
  else
    let prog := Progression.init payment s.progression_ratio
    match GeometricProgression.sum_first_terms prog s.periods with
    | .error e => .error e
    | .ok sum0 =>
      let pv := if s.first_payment = 1 then sum0 * s.progression_ratio else sum0
      let fv := AbstractInterest.future_value CompoundInterest.accumulation_factor
        pv none s.interest_rate s.periods
      .ok (some pv,
        { s with
          payment_cache := some payment
          progression_cache := some prog
          present_value_cache := some pv
          future_value_cache := some fv })

/-- The mutual-consistency relation between the monetary caches that the
spec asserts after a solve call: both value caches are populated and the
future value is the present value grown by the compound accumulation factor
over the instance's period count. -/
def caches_consistent (s : UniformSeriesPayment K) : Prop :=
  ∃ pv fv, s.present_value_cache = some pv ∧ s.future_value_cache = some fv ∧
    fv = pv * CompoundInterest.accumulation_factor s.interest_rate s.periods

end UniformSeriesPayment

end Series

section SpecSide

variable {K : Type} [LinearOrderedField K] {P : Type}

/-- Helper for the fill-forward specification: the first `len` positions of
`l` continued past its end by repeating the element most recently seen —
`seed` when `l` is empty. -/
def fillForward {α : Type} (seed : α) : List α → ℕ → List α
  | _, 0 => []
  | [], len + 1 => seed :: fillForward seed [] len
  | x :: xs, len + 1 => x :: fillForward x xs len

/-- Modelled from the spec's words for the fill-forward zip: a list padded to
length `len` by repeating its final element (`pad_last`). -/
def padLast {α : Type} [Inhabited α] (l : List α) (len : ℕ) : List α :=
  l ++ List.replicate (len - l.length) (l.getLastD default)

/-- Modelled from the spec's words for `net_present_value` (spec sections
4.2 and 9): extend each of the three lists to the length of the longest by
repeating its last element, pair them up positionally, and sum the present
value of each triple. Compared against the loop of the source in the
net-present-value claim. -/
def npvSpec [Inhabited K] [Inhabited P] (A : K → P → K)
    (future_values interest_rates : List K) (periods : List P) : K :=
  let len := max future_values.length (max interest_rates.length periods.length)
  (List.zipWith (fun f (p : K × P) =>
      AbstractInterest.present_value A f none p.1 p.2)
    (padLast future_values len)
    ((padLast interest_rates len).zip (padLast periods len))).sum

end SpecSide

section Helpers

variable {K : Type} [LinearOrderedField K] {P : Type}

/-- Sanity of the optional-argument embedding: `interest` with a supplied
future value is `fv - present_value` whatever the regime, matching the
inlined branch of `interest_rate_period`. -/
theorem interest_future_value_branch (A : K → P → K) (pv fv r : K) (n : P) :
    AbstractInterest.interest A pv (some fv) r n = fv - pv := rfl

/-- Compound accumulation over one period is `1 + i`. -/
theorem compound_accumulation_one (i : K) :
    CompoundInterest.accumulation_factor i 1 = 1 + i := zpow_one _

/-- The progression ratio a fresh solver stores is the one-period discount
`1/(1 + i)`. -/
theorem freshSolver_progression_ratio (i : K) (n k : ℤ) :
    (UniformSeriesPayment.freshSolver i n k).progression_ratio = 1 / (1 + i) := by
  simp [UniformSeriesPayment.freshSolver, AbstractInterest.reduction_factor,
    CompoundInterest.accumulation_factor]

/-- With no interest amount supplied, `future_value` scales by the
accumulation factor. -/
theorem future_value_rate (A : K → P → K) (pv r : K) (n : P) :
    AbstractInterest.future_value A pv none r n = pv * A r n := rfl

/-- With no interest amount supplied, `present_value` scales by the
reduction factor. -/
theorem present_value_rate (A : K → P → K) (fv r : K) (n : P) :
    AbstractInterest.present_value A fv none r n
      = fv * AbstractInterest.reduction_factor A r n := rfl

/-- A nonzero accumulation factor and its reduction factor multiply to 1. -/
theorem acc_mul_reduction (A : K → P → K) (i : K) (n : P) (h : A i n ≠ 0) :
    A i n * AbstractInterest.reduction_factor A i n = 1 := by
  simp only [AbstractInterest.reduction_factor]
  field_simp

/-- Growing a present value and discounting it back is the identity whenever
the accumulation factor is nonzero. -/
theorem present_of_future_roundtrip (A : K → P → K) (i : K) (n : P)
    (h : A i n ≠ 0) (pv : K) :
    AbstractInterest.present_value A
      (AbstractInterest.future_value A pv none i n) none i n = pv := by
  simp only [AbstractInterest.present_value, AbstractInterest.future_value,
    AbstractInterest.reduction_factor]
  field_simp

/-- A term request at an index of at least 1 never raises. -/
theorem nth_term_ok (compute : ProgressionState K → ℤ → K × ProgressionState K)
    (s : ProgressionState K) (n : ℤ) (h : 1 ≤ n) :
    ∃ r, Progression.nth_term compute s n = .ok r := by
  unfold Progression.nth_term
  rw [if_neg (by omega)]
  cases Progression.terms s n
  · exact ⟨_, rfl⟩
  · exact ⟨_, rfl⟩

/-- The loop of `n_first_terms` only requests indices at least 1, so it never
raises. -/
theorem first_terms_aux_ok
    (compute : ProgressionState K → ℤ → K × ProgressionState K)
    (s : ProgressionState K) (count : ℕ) :
    ∃ r, Progression.first_terms_aux compute s count = .ok r := by
  induction count with
  | zero => exact ⟨_, rfl⟩
  | succ m ih =>
    obtain ⟨⟨acc, s'⟩, h1⟩ := ih
    obtain ⟨⟨v, s''⟩, h2⟩ := nth_term_ok compute s' ((m : ℤ) + 1) (by omega)
    refine ⟨(acc ++ [v], s''), ?_⟩
    unfold Progression.first_terms_aux
    simp only [h1, h2]

/-- A geometric partial sum at an index of at least 1 never raises. -/
theorem geometric_sum_ok (s : ProgressionState K) (n : ℤ) (h : 1 ≤ n) :
    ∃ v, GeometricProgression.sum_first_terms s n = .ok v := by
  unfold GeometricProgression.sum_first_terms
  rw [if_neg (by omega)]
  by_cases hr : s.ratio = 1
  · rw [if_pos hr]; exact ⟨_, rfl⟩
  · rw [if_neg hr]; exact ⟨_, rfl⟩

end Helpers

section Claims

variable {K : Type} [LinearOrderedField K] {P : Type}

/-- Claim C5: for each regime (simple and compound), whenever the
accumulation factor at `(rate, periods)` is nonzero it multiplies with the
reduction factor to exactly 1, and consequently discounting
`future_value(pv, rate, periods)` back over the same rate and periods
returns exactly `pv`. -/
theorem c5_accumulation_reduction_inverse :
    (∀ i n : K, SimpleInterest.accumulation_factor i n ≠ 0 →
      SimpleInterest.accumulation_factor i n *
        AbstractInterest.reduction_factor SimpleInterest.accumulation_factor i n
          = 1 ∧
      ∀ pv : K, AbstractInterest.present_value SimpleInterest.accumulation_factor
        (AbstractInterest.future_value SimpleInterest.accumulation_factor pv none
          i n) none i n = pv) ∧
    (∀ (i : K) (n : ℤ), CompoundInterest.accumulation_factor i n ≠ 0 →
      CompoundInterest.accumulation_factor i n *
        AbstractInterest.reduction_factor CompoundInterest.accumulation_factor i n
          = 1 ∧
      ∀ pv : K, AbstractInterest.present_value CompoundInterest.accumulation_factor
        (AbstractInterest.future_value CompoundInterest.accumulation_factor pv none
          i n) none i n = pv) :=
  ⟨fun i n h => ⟨acc_mul_reduction _ i n h, present_of_future_roundtrip _ i n h⟩,
   fun i n h => ⟨acc_mul_reduction _ i n h, present_of_future_roundtrip _ i n h⟩⟩

/-- Witness for C5 at rate 1, one period, present values 5 and 7, over `ℚ`. -/
theorem c5_witness :
    SimpleInterest.accumulation_factor (1 : ℚ) 1 *
      AbstractInterest.reduction_factor SimpleInterest.accumulation_factor 1 1
        = 1 ∧
    AbstractInterest.present_value SimpleInterest.accumulation_factor
      (AbstractInterest.future_value SimpleInterest.accumulation_factor 5 none
        (1 : ℚ) 1) none 1 1 = 5 ∧
    CompoundInterest.accumulation_factor (1 : ℚ) 1 *
      AbstractInterest.reduction_factor CompoundInterest.accumulation_factor 1 1
        = 1 ∧
    AbstractInterest.present_value CompoundInterest.accumulation_factor
      (AbstractInterest.future_value CompoundInterest.accumulation_factor 7 none
        (1 : ℚ) 1) none 1 1 = 7 :=
  ⟨(c5_accumulation_reduction_inverse.1 1 1 (by norm_num
      [SimpleInterest.accumulation_factor])).1,
   (c5_accumulation_reduction_inverse.1 1 1 (by norm_num
      [SimpleInterest.accumulation_factor])).2 5,
   (c5_accumulation_reduction_inverse.2 1 1 (by norm_num
      [CompoundInterest.accumulation_factor])).1,
   (c5_accumulation_reduction_inverse.2 1 1 (by norm_num
      [CompoundInterest.accumulation_factor])).2 7⟩

/-- Claim C9: for any progression state of either regime, an index below 1
makes each of `nth_term`, `n_first_terms` and `sum_first_terms` fail with the
index-range error, and an index of at least 1 makes none of them fail. -/
theorem c9_progression_index_error (s : ProgressionState K) (n : ℤ) :
    (n < 1 →
      Progression.nth_term ArithmeticProgression.nth_term_compute s n
          = .error .indexError ∧
      Progression.nth_term GeometricProgression.nth_term_compute s n
          = .error .indexError ∧
      Progression.n_first_terms ArithmeticProgression.nth_term_compute s n
          = .error .indexError ∧
      Progression.n_first_terms GeometricProgression.nth_term_compute s n
          = .error .indexError ∧
      ArithmeticProgression.sum_first_terms s n = .error .indexError ∧
      GeometricProgression.sum_first_terms s n = .error .indexError) ∧
    (1 ≤ n →
      (∃ r, Progression.nth_term ArithmeticProgression.nth_term_compute s n
          = .ok r) ∧
      (∃ r, Progression.nth_term GeometricProgression.nth_term_compute s n
          = .ok r) ∧
      (∃ r, Progression.n_first_terms ArithmeticProgression.nth_term_compute s n
          = .ok r) ∧
      (∃ r, Progression.n_first_terms GeometricProgression.nth_term_compute s n
          = .ok r) ∧
      (∃ r, ArithmeticProgression.sum_first_terms s n = .ok r) ∧
      (∃ r, GeometricProgression.sum_first_terms s n = .ok r)) := by
  constructor
  · intro h
    refine ⟨?_, ?_, ?_, ?_, ?_, ?_⟩ <;>
      simp [Progression.nth_term, Progression.n_first_terms,
        ArithmeticProgression.sum_first_terms,
        GeometricProgression.sum_first_terms, h]
  · intro h
    refine ⟨nth_term_ok _ s n h, nth_term_ok _ s n h, ?_, ?_, ?_,
      geometric_sum_ok s n h⟩
    · unfold Progression.n_first_terms
      rw [if_neg (by omega)]
      exact first_terms_aux_ok _ s n.toNat
    · unfold Progression.n_first_terms
      rw [if_neg (by omega)]
      exact first_terms_aux_ok _ s n.toNat
    · obtain ⟨⟨v, s'⟩, hv⟩ :=
        nth_term_ok (ArithmeticProgression.nth_term_compute (K := K)) s n h
      refine ⟨((n : K) * (s.term1 + v) / 2, s'), ?_⟩
      unfold ArithmeticProgression.sum_first_terms
      rw [if_neg (by omega), hv]

/-- Witness for C9 at the geometric-style state with first term 5 and ratio
2, indices 0 and 1, over `ℚ`. -/
theorem c9_witness :
    Progression.nth_term ArithmeticProgression.nth_term_compute
        (Progression.init (5 : ℚ) 2) 0 = .error .indexError ∧
    GeometricProgression.sum_first_terms (Progression.init (5 : ℚ) 2) 0
        = .error .indexError ∧
    (∃ r, Progression.nth_term GeometricProgression.nth_term_compute
        (Progression.init (5 : ℚ) 2) 1 = .ok r) ∧
    (∃ r, Progression.n_first_terms ArithmeticProgression.nth_term_compute
        (Progression.init (5 : ℚ) 2) 1 = .ok r) :=
  ⟨((c9_progression_index_error (Progression.init (5 : ℚ) 2) 0).1
      (by norm_num)).1,
   ((c9_progression_index_error (Progression.init (5 : ℚ) 2) 0).1
      (by norm_num)).2.2.2.2.2,
   ((c9_progression_index_error (Progression.init (5 : ℚ) 2) 1).2
      (by norm_num)).2.1,
   ((c9_progression_index_error (Progression.init (5 : ℚ) 2) 1).2
      (by norm_num)).2.2.1⟩

/-- Claim C10: `net_present_value` raises the index-range error whenever at
least one of its three input lists is empty, not only when all three are. -/
theorem c10_net_present_value_empty_list (A : K → P → K)
    (future_values interest_rates : List K) (periods : List P)
    (h : future_values = [] ∨ interest_rates = [] ∨ periods = []) :
    AbstractInterest.net_present_value A future_values interest_rates periods
      = .error .indexError := by
  rcases h with rfl | rfl | rfl
  · cases interest_rates <;> cases periods <;> rfl
  · cases future_values <;> cases periods <;> rfl
  · cases future_values <;> cases interest_rates <;> rfl

/-- Witness for C10: an empty future-value list next to non-empty rate and
period lists raises, over `ℚ` with the simple regime. -/
theorem c10_witness :
    AbstractInterest.net_present_value
      (SimpleInterest.accumulation_factor (K := ℚ)) [] [1] [1]
      = .error .indexError :=
  c10_net_present_value_empty_list _ _ _ _ (Or.inl rfl)

/-- Counterexample to C1 as stated: at `i = 1`, `n = 1`, `k = 1` (the
claim's annuity-due label) and `pv = 1` the claim predicts the payment
`pv·i·(1+i)ⁿ/((1+i)ⁿ−1)` scaled by `1/(1+i)`, namely 1, but the freshly
constructed solver returns 2 — the source scales when `k = 0`, not when
`k = 1`. -/
theorem c1_timing_counterexample :
    UniformSeriesPayment.mk? (1 : ℚ) 1 1
        = some (UniformSeriesPayment.freshSolver 1 1 1) ∧
    ¬ ((UniformSeriesPayment.payment_by_present_value
          (UniformSeriesPayment.freshSolver (1 : ℚ) 1 1) 1 (1/100)).1
        = some (1 * ((1 * (1 + 1) ^ (1 : ℤ)) / ((1 + 1) ^ (1 : ℤ) - 1))
            * (1 / (1 + 1)))) := by
  refine ⟨rfl, ?_⟩
  simp only [UniformSeriesPayment.payment_by_present_value,
    UniformSeriesPayment.freshSolver, UniformSeriesPayment.pv_cache_hit,
    Bool.false_eq_true, if_false, UniformSeriesPayment.pmt_by_pv,
    AbstractInterest.reduction_factor, CompoundInterest.accumulation_factor,
    zpow_one]
  norm_num

/-- Claim C1 as amended: on a fresh `UniformSeriesPayment(i, n, k)` with
`i ≠ 0`, `n ≥ 1`, `(1+i)ⁿ ≠ 1` and valid timing flag,
`payment_by_present_value(pv)` returns `pv·i·(1+i)ⁿ/((1+i)ⁿ−1)`, scaled by
the extra one-period discount `1/(1+i)` exactly when `k = 0` and unscaled
when `k = 1` — the opposite labelling to the claim as stated. -/
theorem c1_payment_by_present_value_timing (i pv : K) (n k : ℤ)
    (hk : k = 0 ∨ k = 1) (hi : i ≠ 0) (hn : 1 ≤ n)
    (hacc : (1 + i) ^ n ≠ 1) :
    UniformSeriesPayment.mk? i n k
        = some (UniformSeriesPayment.freshSolver i n k) ∧
    (UniformSeriesPayment.payment_by_present_value
        (UniformSeriesPayment.freshSolver i n k) pv (1/100)).1
      = some (pv * ((i * (1 + i) ^ n) / ((1 + i) ^ n - 1))
          * (if k = 0 then 1 / (1 + i) else 1)) := by
  constructor
  · rw [UniformSeriesPayment.mk?, if_pos hk]
  · simp only [UniformSeriesPayment.payment_by_present_value,
      UniformSeriesPayment.freshSolver, UniformSeriesPayment.pv_cache_hit,
      Bool.false_eq_true, if_false, UniformSeriesPayment.pmt_by_pv,
      AbstractInterest.reduction_factor, CompoundInterest.accumulation_factor,
      zpow_one]

/-- Witness for C1 at `i = 1`, `n = 1`, `k = 0`, `pv = 1`, over `ℚ`: the
scaled branch fires and the payment is 1. -/
theorem c1_timing_witness :
    UniformSeriesPayment.mk? (1 : ℚ) 1 0
        = some (UniformSeriesPayment.freshSolver 1 1 0) ∧
    (UniformSeriesPayment.payment_by_present_value
        (UniformSeriesPayment.freshSolver (1 : ℚ) 1 0) 1 (1/100)).1
      = some (1 * ((1 * (1 + 1) ^ (1 : ℤ)) / ((1 + 1) ^ (1 : ℤ) - 1))
          * (if (0 : ℤ) = 0 then 1 / (1 + 1) else 1)) :=
  c1_payment_by_present_value_timing 1 1 1 0 (Or.inl rfl) (by norm_num)
    (by norm_num) (by norm_num)

/-- Counterexample to C4 as stated: with present value 1, inflation rate 1
and explicit nominal rate 3, the claim predicts
`pv·(nominal − inflation)/(1 + inflation) = 1`, but the source returns
`pv·(nominal − inflation) = 2` — the division by `1 + inflation` is absent
from `real_interest_period`. -/
theorem c4_scaling_counterexample :
    ¬ (AbstractInterest.real_interest_period (1 : ℚ) 1 (some 3) none none
        = some (1 * (3 - 1) / (1 + 1))) := by
  unfold AbstractInterest.real_interest_period
  norm_num

/-- Claim C4 as amended: for every way of supplying the nominal rate
(explicit rate, else future value, else interest amount, in that priority
order) and every inflation rate other than −1, `real_interest_period`
returns the present value times the unadjusted spread
`nominal − inflation`; equivalently it is `present_value · (1 + inflation)`
times `real_interest_rate_period` on the same inputs, not
`present_value` times it as claimed. -/
theorem c4_real_interest_period_unscaled (pv inflation_rate : K)
    (interest_rate future_value interest_supplied : Option K)
    (h : 1 + inflation_rate ≠ 0) :
    AbstractInterest.real_interest_period pv inflation_rate
        interest_rate future_value interest_supplied
      = (AbstractInterest.real_interest_rate_period pv inflation_rate
          interest_rate future_value interest_supplied).map
          (fun x => pv * ((1 + inflation_rate) * x)) := by
  unfold AbstractInterest.real_interest_period
    AbstractInterest.real_interest_rate_period
  rw [Option.map_map]
  congr 1
  funext r
  simp only [Function.comp_apply]
  field_simp

/-- Witness for C4 at present value 1, inflation 1 and explicit nominal
rate 3, over `ℚ`. -/
theorem c4_witness :
    AbstractInterest.real_interest_period (1 : ℚ) 1 (some 3) none none
      = (AbstractInterest.real_interest_rate_period (1 : ℚ) 1 (some 3) none
          none).map (fun x => 1 * ((1 + 1) * x)) :=
  c4_real_interest_period_unscaled 1 1 (some 3) none none (by norm_num)

/-- Claim C6: on a fresh solver with a valid timing flag, solving
`payment_by_present_value(pv)` and then asking `present_value` of the
returned payment yields a value within the default tolerance 0.01 of `pv` —
the second call hits the payment cache and returns the stored present value,
which is exactly `pv`. -/
theorem c6_annuity_roundtrip (i pv : K) (n k : ℤ)
    (hk : k = 0 ∨ k = 1) (hi : i ≠ 0) (hn : 1 ≤ n)
    (hacc : (1 + i) ^ n ≠ 1) :
    ∃ pmt,
      (UniformSeriesPayment.payment_by_present_value
          (UniformSeriesPayment.freshSolver i n k) pv (1/100)).1 = some pmt ∧
      ∃ pv', UniformSeriesPayment.present_value
          (UniformSeriesPayment.payment_by_present_value
            (UniformSeriesPayment.freshSolver i n k) pv (1/100)).2 pmt (1/100)
          = .ok (some pv',
              (UniformSeriesPayment.payment_by_present_value
                (UniformSeriesPayment.freshSolver i n k) pv (1/100)).2) ∧
        |pv' - pv| ≤ 1/100 := by
  have hmiss : UniformSeriesPayment.pv_cache_hit
      (UniformSeriesPayment.freshSolver i n k) pv (1/100) = false := rfl
  set pmt := UniformSeriesPayment.pmt_by_pv pv i n k
    CompoundInterest.accumulation_factor with hpmt
  have hfst : (UniformSeriesPayment.payment_by_present_value
      (UniformSeriesPayment.freshSolver i n k) pv (1/100)).1 = some pmt := by
    rw [UniformSeriesPayment.payment_by_present_value, hmiss]
    rfl
  have hpc : (UniformSeriesPayment.payment_by_present_value
      (UniformSeriesPayment.freshSolver i n k) pv (1/100)).2.payment_cache
      = some pmt := by
    rw [UniformSeriesPayment.payment_by_present_value, hmiss]
    rfl
  have hpv : (UniformSeriesPayment.payment_by_present_value
      (UniformSeriesPayment.freshSolver i n k) pv (1/100)).2.present_value_cache
      = some pv := by
    rw [UniformSeriesPayment.payment_by_present_value, hmiss]
    rfl
  have hhit : UniformSeriesPayment.pmt_cache_hit
      (UniformSeriesPayment.payment_by_present_value
        (UniformSeriesPayment.freshSolver i n k) pv (1/100)).2 pmt (1/100)
      = true := by
    rw [UniformSeriesPayment.pmt_cache_hit, hpc]
    rw [decide_eq_true_eq, sub_self, abs_zero]
    norm_num
  refine ⟨pmt, hfst, pv, ?_, by simp⟩
  rw [UniformSeriesPayment.present_value, hhit, if_pos rfl, hpv]

/-- Counterexample to C2 as stated: for `CompoundInterest` at
`present_value = 1`, `future_value = 4`, `periods = 2` the inherited
`interest_rate` returns the linear answer 3/2 while
`internal_rate_return` returns `4^(1/2) − 1 = 1` — the two disagree, so the
claimed equivalence fails for the compound regime. -/
theorem c2_compound_counterexample :
    AbstractInterest.interest_rate (1 : ℝ) 4 2
      ≠ some (CompoundInterest.internal_rate_return 1 4 2) := by
  have hpow : ((4 : ℝ) / 1) ^ ((1 : ℝ) / ((2 : ℤ) : ℝ)) = 2 := by
    have h4 : ((4 : ℝ) / 1) = (2 : ℝ) ^ (2 : ℕ) := by norm_num
    have he : ((1 : ℝ) / ((2 : ℤ) : ℝ)) = (((2 : ℕ) : ℝ))⁻¹ := by norm_num
    rw [h4, he, Real.pow_rpow_inv_natCast (by norm_num) (by norm_num)]
  unfold AbstractInterest.interest_rate AbstractInterest.interest_rate_period
    CompoundInterest.internal_rate_return
  simp only [Option.map_some']
  rw [hpow]
  norm_num

/-- Claim C2 as amended: `internal_rate_return` coincides with the shared
`interest_rate` for the simple regime at every nonzero present value and
period count of at least 1; for the compound regime the two definitions
coincide only in special cases such as a single period — `interest_rate` is
not overridden and stays linear, while `internal_rate_return` takes the
`periods`-th root. -/
theorem c2_internal_rate_return_vs_interest_rate :
    (∀ pv fv n : ℝ, pv ≠ 0 → 1 ≤ n →
      AbstractInterest.interest_rate pv fv n
        = some (SimpleInterest.internal_rate_return pv fv n)) ∧
    (∀ pv fv : ℝ, pv ≠ 0 →
      AbstractInterest.interest_rate pv fv 1
        = some (CompoundInterest.internal_rate_return pv fv 1)) := by
  constructor
  · intro pv fv n hpv hn
    unfold AbstractInterest.interest_rate AbstractInterest.interest_rate_period
      SimpleInterest.internal_rate_return
    simp only [Option.map_some']
    congr 2
    rw [sub_div, div_self hpv]
  · intro pv fv hpv
    unfold AbstractInterest.interest_rate AbstractInterest.interest_rate_period
      CompoundInterest.internal_rate_return
    simp only [Option.map_some', Int.cast_one, div_one, Real.rpow_one]
    congr 1
    rw [sub_div, div_self hpv]

/-- Witness for C2 at `(1, 3, 2)` for the simple regime and `(1, 3, 1)` for
the compound regime. -/
theorem c2_witness :
    AbstractInterest.interest_rate (1 : ℝ) 3 2
        = some (SimpleInterest.internal_rate_return 1 3 2) ∧
    AbstractInterest.interest_rate (1 : ℝ) 3 1
        = some (CompoundInterest.internal_rate_return 1 3 1) :=
  ⟨c2_internal_rate_return_vs_interest_rate.1 1 3 2 (by norm_num)
      (by norm_num),
   c2_internal_rate_return_vs_interest_rate.2 1 3 (by norm_num)⟩

/-- Counterexample to C3 as stated: at `present_value = 1`,
`future_value = 3`, `interest_rate = 1` the inherited `periods` returns the
linear answer `rate_period/rate = 2`, while the claimed formula
`log(1 + rate_period)/log(1 + rate) = log 3 / log 2` is strictly below 2. -/
theorem c3_log_counterexample :
    AbstractInterest.periods (1 : ℝ) 3 1
      ≠ some (Real.log (1 + (3 - 1) / 1) / Real.log (1 + 1)) := by
  unfold AbstractInterest.periods AbstractInterest.interest_rate_period
  simp only [Option.map_some']
  intro hEq
  rw [Option.some.injEq] at hEq
  norm_num at hEq
  have h2 : (0 : ℝ) < Real.log 2 := Real.log_pos (by norm_num)
  have h34 : Real.log 3 < Real.log 4 := Real.log_lt_log (by norm_num)
    (by norm_num)
  have h4 : Real.log 4 = 2 * Real.log 2 := by
    rw [show (4 : ℝ) = 2 ^ (2 : ℕ) by norm_num, Real.log_pow]
    norm_num
  have hlt : Real.log 3 / Real.log 2 < 2 := by
    rw [div_lt_iff h2]
    nlinarith
  linarith

/-- Claim C3 as amended: `CompoundInterest` inherits `periods` unchanged
from `AbstractInterest`, so it returns the linear quotient
`((fv − pv)/pv)/rate` — the exact inversion of the simple accumulation
factor, not the logarithmic inversion of the compound one: growing `pv` at
simple interest for the returned period count reproduces `fv`. -/
theorem c3_periods_linear_inversion (pv fv r : ℝ) (hpv : pv ≠ 0)
    (hr : r ≠ 0) :
    AbstractInterest.periods pv fv r = some (((fv - pv) / pv) / r) ∧
    AbstractInterest.future_value SimpleInterest.accumulation_factor pv none r
        (((fv - pv) / pv) / r) = fv := by
  refine ⟨rfl, ?_⟩
  rw [future_value_rate]
  unfold SimpleInterest.accumulation_factor
  field_simp
  ring

/-- Witness for C3 at `(1, 3, 1)`. -/
theorem c3_witness :
    AbstractInterest.periods (1 : ℝ) 3 1 = some (((3 - 1) / 1) / 1) ∧
    AbstractInterest.future_value SimpleInterest.accumulation_factor 1 none 1
        (((3 - 1 : ℝ) / 1) / 1) = 3 :=
  c3_periods_linear_inversion 1 3 1 (by norm_num) (by norm_num)

/-- Witness for C6 at `i = 1`, `n = 1`, `k = 0`, `pv = 1`, over `ℚ`. -/
theorem c6_witness :
    ∃ pmt,
      (UniformSeriesPayment.payment_by_present_value
          (UniformSeriesPayment.freshSolver (1 : ℚ) 1 0) 1 (1/100)).1
        = some pmt ∧
      ∃ pv', UniformSeriesPayment.present_value
          (UniformSeriesPayment.payment_by_present_value
            (UniformSeriesPayment.freshSolver (1 : ℚ) 1 0) 1 (1/100)).2 pmt
          (1/100)
          = .ok (some pv',
              (UniformSeriesPayment.payment_by_present_value
                (UniformSeriesPayment.freshSolver (1 : ℚ) 1 0) 1 (1/100)).2) ∧
        |pv' - 1| ≤ 1/100 :=
  c6_annuity_roundtrip 1 1 1 0 (Or.inl rfl) (by norm_num) (by norm_num)
    (by norm_num)

/-- Filling forward to length 0 gives the empty list. -/
theorem fillForward_zero {α : Type} (seed : α) (l : List α) :
    fillForward seed l 0 = [] := by
  cases l <;> rfl

/-- Unrolling `fillForward` one position: the head of the list when there is
one, otherwise the carried seed. -/
theorem fillForward_succ {α : Type} (seed : α) (l : List α) (len : ℕ) :
    fillForward seed l (len + 1)
      = l.headD seed :: fillForward (l.headD seed) l.tail len := by
  cases l <;> rfl

/-- Filling forward from an empty list repeats the seed. -/
theorem fillForward_nil {α : Type} (seed : α) (len : ℕ) :
    fillForward seed [] len = List.replicate len seed := by
  induction len with
  | zero => rfl
  | succ m ih => rw [fillForward, ih, List.replicate_succ]

/-- On a non-empty list that fits, filling forward is padding with the last
element, whatever the seed. -/
theorem fillForward_eq_padLast {α : Type} [Inhabited α] (seed x : α)
    (xs : List α) (len : ℕ) (h : (x :: xs).length ≤ len) :
    fillForward seed (x :: xs) len = padLast (x :: xs) len := by
  induction len generalizing seed x xs with
  | zero => simp at h
  | succ m ih =>
    cases xs with
    | nil =>
      rw [fillForward, fillForward_nil, padLast]
      simp [List.replicate_succ]
    | cons y ys =>
      rw [fillForward, ih x y ys (by simpa using h), padLast, padLast]
      simp [List.getLastD_cons]

/-- The `zip_longest` loop of `net_present_value` is the positional sum of
present values over the three fill-forwarded lists. -/
theorem npv_loop_eq_fill (A : K → P → K) (len : ℕ) (pf pi0 : K) (pn : P)
    (fs rs : List K) (ns : List P) :
    AbstractInterest.npv_loop A len pf pi0 pn fs rs ns
      = (List.zipWith (fun f (p : K × P) =>
            AbstractInterest.present_value A f none p.1 p.2)
          (fillForward pf fs len)
          ((fillForward pi0 rs len).zip (fillForward pn ns len))).sum := by
  induction len generalizing pf pi0 pn fs rs ns with
  | zero => rw [fillForward_zero, fillForward_zero, fillForward_zero]; rfl
  | succ m ih =>
    rw [AbstractInterest.npv_loop, fillForward_succ pf fs,
      fillForward_succ pi0 rs, fillForward_succ pn ns, List.zip_cons_cons,
      List.zipWith_cons_cons, List.sum_cons, ih]

/-- Claim C7: on non-empty inputs of possibly unequal lengths,
`net_present_value` returns the sum, over the positions of the longest list,
of the present value of each triple, after each shorter list is extended by
repeating its last element — the fill-forward zip of the spec, stated by the
independently defined `npvSpec`. -/
theorem c7_net_present_value_fill_forward [Inhabited K] [Inhabited P]
    (A : K → P → K) (f0 i0 : K) (n0 : P) (fs rs : List K) (ns : List P) :
    AbstractInterest.net_present_value A (f0 :: fs) (i0 :: rs) (n0 :: ns)
      = .ok (npvSpec A (f0 :: fs) (i0 :: rs) (n0 :: ns)) := by
  rw [AbstractInterest.net_present_value]
  unfold npvSpec
  rw [npv_loop_eq_fill,
    fillForward_eq_padLast f0 f0 fs _ (Nat.le_max_left _ _),
    fillForward_eq_padLast i0 i0 rs _
      (le_trans (Nat.le_max_left _ _) (Nat.le_max_right _ _)),
    fillForward_eq_padLast n0 n0 ns _
      (le_trans (Nat.le_max_right _ _) (Nat.le_max_right _ _))]

/-- Claim C8: from any state whose caches are in no worse shape than a just
solved one, each of the four solve calls either misses its cache and leaves
the present and future value caches populated and mutually consistent —
the cached future value is the cached present value grown by the compound
accumulation factor — or hits its cache and returns the cached counterpart
with the state unchanged. -/
theorem c8_solver_cache_invariant (s : UniformSeriesPayment K) (x tol : K)
    (hA : CompoundInterest.accumulation_factor s.interest_rate s.periods
      ≠ 0) :
    (UniformSeriesPayment.pv_cache_hit s x tol = false →
      UniformSeriesPayment.caches_consistent
        (UniformSeriesPayment.payment_by_present_value s x tol).2) ∧
    (UniformSeriesPayment.pv_cache_hit s x tol = true →
      UniformSeriesPayment.payment_by_present_value s x tol
        = (s.payment_cache, s)) ∧
    (UniformSeriesPayment.fv_cache_hit s x tol = false →
      UniformSeriesPayment.caches_consistent
        (UniformSeriesPayment.payment_by_future_value s x tol).2) ∧
    (UniformSeriesPayment.fv_cache_hit s x tol = true →
      UniformSeriesPayment.payment_by_future_value s x tol
        = (s.payment_cache, s)) ∧
    (UniformSeriesPayment.pmt_cache_hit s x tol = false →
      UniformSeriesPayment.caches_consistent
        (UniformSeriesPayment.future_value s x tol).2) ∧
    (UniformSeriesPayment.pmt_cache_hit s x tol = true →
      UniformSeriesPayment.future_value s x tol
        = (s.future_value_cache, s)) ∧
    (UniformSeriesPayment.pmt_cache_hit s x tol = false → 1 ≤ s.periods →
      ∃ r s', UniformSeriesPayment.present_value s x tol = .ok (r, s') ∧
        UniformSeriesPayment.caches_consistent s') ∧
    (UniformSeriesPayment.pmt_cache_hit s x tol = true →
      UniformSeriesPayment.present_value s x tol
        = .ok (s.present_value_cache, s)) := by
  refine ⟨?_, ?_, ?_, ?_, ?_, ?_, ?_, ?_⟩
  · intro h
    simp only [UniformSeriesPayment.payment_by_present_value, h,
      Bool.false_eq_true, if_false]
    exact ⟨x, _, rfl, rfl, future_value_rate _ x _ _⟩
  · intro h
    simp only [UniformSeriesPayment.payment_by_present_value, h, if_true]
  · intro h
    simp only [UniformSeriesPayment.payment_by_future_value, h,
      Bool.false_eq_true, if_false]
    refine ⟨_, x, rfl, rfl, ?_⟩
    rw [present_value_rate]
    simp only [AbstractInterest.reduction_factor]
    field_simp
  · intro h
    simp only [UniformSeriesPayment.payment_by_future_value, h, if_true]
  · intro h
    simp only [UniformSeriesPayment.future_value, h,
      Bool.false_eq_true, if_false]
    refine ⟨_, _, rfl, rfl, ?_⟩
    rw [present_value_rate]
    simp only [AbstractInterest.reduction_factor]
    field_simp
  · intro h
    simp only [UniformSeriesPayment.future_value, h, if_true]
  · intro h hn
    obtain ⟨v, hv⟩ :=
      geometric_sum_ok (Progression.init x s.progression_ratio) s.periods hn
    simp only [UniformSeriesPayment.present_value, h,
      Bool.false_eq_true, if_false, hv]
    exact ⟨_, _, rfl, _, _, rfl, rfl, future_value_rate _ _ _ _⟩
  · intro h
    simp only [UniformSeriesPayment.present_value, h, if_true]

/-- Witness for C8: the miss branch of `payment_by_present_value` on a fresh
solver at `i = 1`, `n = 1`, `k = 1`, asked for present value 2, leaves
consistent caches, over `ℚ`. -/
theorem c8_witness :
    UniformSeriesPayment.caches_consistent
      ((UniformSeriesPayment.payment_by_present_value
        (UniformSeriesPayment.freshSolver (1 : ℚ) 1 1) 2 (1/100)).2) :=
  (c8_solver_cache_invariant (UniformSeriesPayment.freshSolver (1 : ℚ) 1 1) 2
      (1/100)
      (by norm_num [CompoundInterest.accumulation_factor,
        UniformSeriesPayment.freshSolver])).1 rfl

end Claims

end Financialpy
